import Mathlib

/-!
Verification of the Recall indexing and retrieval engine (services/api) against
its specification. The Python source is shallowly embedded: pure functions
become Lean functions, the LanceDB vector table and the SQLite FTS table become
explicit lists of records, machine floats (file mtimes) become rationals, and
fallible calls return `Option`/`Except`. The asyncio cancellation flag, which
the source guarantees to be monotone within one indexing job (it is reset when
a job starts and only ever set by `request_cancel`), is embedded as a threshold
`cancelAfter` on a running count of flag reads: the k-th read of the flag
returns `cancelAfter ≤ k`.

External libraries (hashlib, python-frontmatter, sqlite FTS5, pathlib) are not
part of the repository; where their behaviour matters it is modelled explicitly
and the corresponding definition says so in its doc comment.
-/

/-! ## Basic string and character utilities (ASCII model of Python semantics) -/

/-- Python whitespace for `str.strip`, `str.split()` and the regex class `\s`
(ASCII range): space, tab, newline, carriage return, vertical tab, form feed. -/
def pyIsSpace (c : Char) : Bool :=
  c = ' ' || c = '\t' || c = '\n' || c = '\x0d' || c = '\x0b' || c = '\x0c'

/-- A regex word character `\w` (ASCII model): letter, digit or underscore. -/
def isWordChar (c : Char) : Bool :=
  c.isAlphanum || c = '_'

/-- Python `str.strip()` on a character list. -/
def stripChars (l : List Char) : List Char :=
  ((l.dropWhile pyIsSpace).reverse.dropWhile pyIsSpace).reverse

/-- Python `str.strip()`. -/
def pyStrip (s : String) : String :=
  ⟨stripChars s.data⟩

/-- Python `str.lower()` (ASCII model). -/
def toLowerStr (s : String) : String :=
  ⟨s.data.map Char.toLower⟩

/-- Python slicing `s[:n]`. -/
def strTake (s : String) (n : Nat) : String :=
  ⟨s.data.take n⟩

/-- Python slicing `s[n:]`. -/
def strDrop (s : String) (n : Nat) : String :=
  ⟨s.data.drop n⟩

/-- Whether `p` is an initial segment of `l`. -/
def listIsInit : List Char → List Char → Bool
  | [], _ => true
  | _ :: _, [] => false
  | p :: ps, c :: cs => p = c && listIsInit ps cs

/-- Python `s.startswith(p)`. -/
def startsWithStr (s p : String) : Bool :=
  listIsInit p.data s.data

/-- If `pat` is an initial segment of `text`, the remainder of `text`. -/
def litAt : List Char → List Char → Option (List Char)
  | [], t => some t
  | _ :: _, [] => none
  | p :: ps, c :: cs => if p = c then litAt ps cs else none

/-- Whether `needle` occurs as a contiguous substring of `hay` (Python `in`). -/
def containsAux (needle : List Char) : List Char → Bool
  | [] => listIsInit needle []
  | c :: cs => listIsInit needle (c :: cs) || containsAux needle cs

/-- Python substring containment `needle in hay`. -/
def strContains (hay needle : String) : Bool :=
  containsAux needle.data hay.data

/-- Split a character list at a separator character, keeping empty pieces
(Python `str.split(sep)` for a one-character separator). -/
def splitSepChar (sep : Char) : List Char → List (List Char)
  | [] => [[]]
  | c :: cs =>
    if c = sep then [] :: splitSepChar sep cs
    else
      match splitSepChar sep cs with
      | [] => [[c]]
      | l :: ls => (c :: l) :: ls

/-- Python `s.split(sep)` for a one-character separator. -/
def pySplitSep (sep : Char) (s : String) : List String :=
  (splitSepChar sep s.data).map (fun l => ⟨l⟩)

/-- Whitespace-run splitter for Python `str.split()` with no argument:
pieces are maximal runs of non-whitespace, empty pieces do not occur. -/
def splitWsAux : List Char → List Char → List (List Char)
  | [], acc => if acc.isEmpty then [] else [acc.reverse]
  | c :: cs, acc =>
    if pyIsSpace c then
      if acc.isEmpty then splitWsAux cs [] else acc.reverse :: splitWsAux cs []
    else splitWsAux cs (c :: acc)

/-- Python `str.split()` with no argument. -/
def pySplitWs (s : String) : List String :=
  (splitWsAux s.data []).map (fun l => ⟨l⟩)

/-- Digits of a decimal numeral, most significant first, as a number. -/
def natOfDigits (l : List Char) : Nat :=
  l.foldl (fun n c => 10 * n + (c.toNat - 48)) 0

/-- Decimal numeral of a number (via `Nat.repr`). -/
def natToStr (n : Nat) : String :=
  Nat.repr n

/-! ## MD5 (hashlib.md5 hexdigest)

The repository hashes file contents with `hashlib.md5(...).hexdigest()`.
hashlib is an external library; the digest is modelled by a full
implementation of MD5 (RFC 1321) over the UTF-8 bytes of the input,
validated against the RFC test vectors. -/

def M32 : Nat := 2 ^ 32

def add32 (a b : Nat) : Nat := (a + b) % M32

def not32 (a : Nat) : Nat := Nat.xor a (M32 - 1)

def rotl32 (a s : Nat) : Nat :=
  ((a <<< s) % M32) ||| (a >>> (32 - s))

def md5K : List Nat :=
  [0xd76aa478, 0xe8c7b756, 0x242070db, 0xc1bdceee,
   0xf57c0faf, 0x4787c62a, 0xa8304613, 0xfd469501,
   0x698098d8, 0x8b44f7af, 0xffff5bb1, 0x895cd7be,
   0x6b901122, 0xfd987193, 0xa679438e, 0x49b40821,
   0xf61e2562, 0xc040b340, 0x265e5a51, 0xe9b6c7aa,
   0xd62f105d, 0x02441453, 0xd8a1e681, 0xe7d3fbc8,
   0x21e1cde6, 0xc33707d6, 0xf4d50d87, 0x455a14ed,
   0xa9e3e905, 0xfcefa3f8, 0x676f02d9, 0x8d2a4c8a,
   0xfffa3942, 0x8771f681, 0x6d9d6122, 0xfde5380c,
   0xa4beea44, 0x4bdecfa9, 0xf6bb4b60, 0xbebfbc70,
   0x289b7ec6, 0xeaa127fa, 0xd4ef3085, 0x04881d05,
   0xd9d4d039, 0xe6db99e5, 0x1fa27cf8, 0xc4ac5665,
   0xf4292244, 0x432aff97, 0xab9423a7, 0xfc93a039,
   0x655b59c3, 0x8f0ccc92, 0xffeff47d, 0x85845dd1,
   0x6fa87e4f, 0xfe2ce6e0, 0xa3014314, 0x4e0811a1,
   0xf7537e82, 0xbd3af235, 0x2ad7d2bb, 0xeb86d391]

def md5S : List Nat :=
  [7, 12, 17, 22, 7, 12, 17, 22, 7, 12, 17, 22, 7, 12, 17, 22,
   5, 9, 14, 20, 5, 9, 14, 20, 5, 9, 14, 20, 5, 9, 14, 20,
   4, 11, 16, 23, 4, 11, 16, 23, 4, 11, 16, 23, 4, 11, 16, 23,
   6, 10, 15, 21, 6, 10, 15, 21, 6, 10, 15, 21, 6, 10, 15, 21]

/-- MD5 padding: append 0x80, zeros to 56 mod 64, then the original bit length
as 8 little-endian bytes. -/
def md5Pad (msg : List Nat) : List Nat :=
  let bitLen := (msg.length * 8) % (2 ^ 64)
  let padZeros := (64 + 56 - (msg.length % 64 + 1)) % 64
  let lenBytes := (List.range 8).map (fun i => (bitLen >>> (8 * i)) % 256)
  msg ++ [0x80] ++ List.replicate padZeros 0 ++ lenBytes

/-- Split a padded message into 64-byte blocks (fuel-based so that the
definition reduces inside the kernel). -/
def md5BlocksAux : Nat → List Nat → List (List Nat)
  | 0, _ => []
  | _ + 1, [] => []
  | n + 1, a :: l => ((a :: l).take 64) :: md5BlocksAux n ((a :: l).drop 64)

def md5Blocks (l : List Nat) : List (List Nat) :=
  md5BlocksAux l.length l

/-- The 16 little-endian 32-bit words of a 64-byte block. -/
def md5Words (block : List Nat) : List Nat :=
  (List.range 16).map (fun i =>
    let b := fun j => block.getD (4 * i + j) 0
    b 0 + (b 1 <<< 8) + (b 2 <<< 16) + (b 3 <<< 24))

def md5Round (m : List Nat) (st : Nat × Nat × Nat × Nat) (i : Nat) :
    Nat × Nat × Nat × Nat :=
  let (a, b, c, d) := st
  let (f, g) :=
    if i < 16 then ((b &&& c) ||| (not32 b &&& d), i)
    else if i < 32 then ((d &&& b) ||| (not32 d &&& c), (5 * i + 1) % 16)
    else if i < 48 then (Nat.xor b (Nat.xor c d), (3 * i + 5) % 16)
    else (Nat.xor c (b ||| not32 d), (7 * i) % 16)
  let f' := (f + a + md5K.getD i 0 + m.getD g 0) % M32
  (d, add32 b (rotl32 f' (md5S.getD i 0)), b, c)

def md5Block (st : Nat × Nat × Nat × Nat) (block : List Nat) :
    Nat × Nat × Nat × Nat :=
  let m := md5Words block
  let (a, b, c, d) := (List.range 64).foldl (md5Round m) st
  let (a0, b0, c0, d0) := st
  (add32 a0 a, add32 b0 b, add32 c0 c, add32 d0 d)

def hexDigit (n : Nat) : Char :=
  if n < 10 then Char.ofNat (48 + n) else Char.ofNat (87 + n)

/-- Hex of one 32-bit word, least significant byte first. -/
def word32LEHex (w : Nat) : List Char :=
  (List.range 4).flatMap (fun i =>
    let byte := (w >>> (8 * i)) % 256
    [hexDigit (byte / 16), hexDigit (byte % 16)])

def md5BytesHex (msg : List Nat) : String :=
  let init : Nat × Nat × Nat × Nat :=
    (0x67452301, 0xefcdab89, 0x98badcfe, 0x10325476)
  let (a, b, c, d) := (md5Blocks (md5Pad msg)).foldl md5Block init
  ⟨word32LEHex a ++ word32LEHex b ++ word32LEHex c ++ word32LEHex d⟩

/-- UTF-8 encoding of one character. -/
def charUtf8Bytes (c : Char) : List Nat :=
  let n := c.toNat
  if n < 0x80 then [n]
  else if n < 0x800 then [0xc0 + n / 64, 0x80 + n % 64]
  else if n < 0x10000 then
    [0xe0 + n / 4096, 0x80 + (n / 64) % 64, 0x80 + n % 64]
  else
    [0xf0 + n / 262144, 0x80 + (n / 4096) % 64, 0x80 + (n / 64) % 64,
     0x80 + n % 64]

def strUtf8 (s : String) : List Nat :=
  s.data.flatMap charUtf8Bytes

/-- Modelled from the spec: `hashlib.md5(text.encode()).hexdigest()` (hashlib
is an external library). Full MD5 over the UTF-8 bytes of the string. -/
def md5Hex (s : String) : String :=
  md5BytesHex (strUtf8 s)

/-! ## Configuration (config.py `Settings`, the fields the core uses) -/

structure Settings where
  api_token : String
  vault_work_path : String
  vault_personal_path : String
  excluded_folders_list : List String
  chunk_size : Nat
  chunk_overlap : Nat
deriving DecidableEq

/-- The defaults from config.py. -/
def defaultSettings : Settings :=
  { api_token := "changeme"
    vault_work_path := "/data/obsidian/work"
    vault_personal_path := "/data/obsidian/personal"
    excluded_folders_list := ["personal/finance"]
    chunk_size := 500
    chunk_overlap := 50 }

/-! ## Data model: LanceDB vector records and SQLite FTS documents -/

/-- indexer.py `DocumentChunk` (one LanceDB row). The 768-float embedding is a
rational vector; the float mtime is a rational. -/
structure DocumentChunk where
  id : String
  vector : List Rat
  file_path : String
  file_hash : String
  mtime : Rat
  title : String
  category : String
  people : List String
  projects : List String
  date : Option String
  vault : String
  chunk_index : Nat
  content : String
  source_type : String
  page_number : Option Nat
deriving DecidableEq

/-- One row of fts_index.py's `fts_documents` table (the FTS5 shadow table is
kept in sync by triggers and is not modelled separately). -/
structure FtsDocument where
  file_path : String
  file_hash : String
  title : String
  vault : String
  category : String
  people : String
  date : Option String
  content : String
deriving DecidableEq

/-- LanceDB `table.delete('file_hash = "h"')`: remove rows with the hash. -/
def tableDeleteHash (t : List DocumentChunk) (h : String) : List DocumentChunk :=
  t.filter (fun r => !(r.file_hash = h))

/-- LanceDB `table.delete('file_path = "p"')`: remove rows with the path. -/
def tableDeletePath (t : List DocumentChunk) (p : String) : List DocumentChunk :=
  t.filter (fun r => !(r.file_path = p))

/-- LanceDB `table.add(records)`: append rows. -/
def tableAdd (t recs : List DocumentChunk) : List DocumentChunk :=
  t ++ recs

/-- LanceDB `table.update(where='file_path = "p"', values={"mtime": m})`:
set the mtime of every row with the path, touching nothing else. -/
def tableUpdateMtime (t : List DocumentChunk) (p : String) (m : Rat) :
    List DocumentChunk :=
  t.map (fun r => if r.file_path = p then { r with mtime := m } else r)

/-- fts_index.py `upsert_document`: insert-or-replace by `file_path`; the
stored `file_hash` is the MD5 of the `content` argument. -/
def upsert_document (t : List FtsDocument) (file_path title content vault
    category : String) (people : List String) (date : Option String) :
    List FtsDocument :=
  let rec0 : FtsDocument :=
    { file_path := file_path
      file_hash := md5Hex content
      title := title
      vault := vault
      category := category
      people := String.intercalate ", " people
      date := date
      content := content }
  if t.any (fun r => r.file_path = file_path) then
    t.map (fun r => if r.file_path = file_path then rec0 else r)
  else t ++ [rec0]

/-- fts_index.py `delete_document` without a vault argument. -/
def fts_delete_document (t : List FtsDocument) (file_path : String) :
    List FtsDocument :=
  t.filter (fun r => !(r.file_path = file_path))

/-- Look up the FTS record of a path. -/
def ftsLookup (t : List FtsDocument) (file_path : String) :
    Option FtsDocument :=
  t.find? (fun r => r.file_path = file_path)

/-! ## Frontmatter and metadata extraction (indexer.py `_extract_metadata_sync`) -/

/-- Join lines with newlines. -/
def joinLines (ls : List String) : String :=
  String.intercalate "\n" ls

/-- Parse one `key: value` frontmatter line. -/
def fmParseLine (l : String) : Option (String × String) :=
  match splitSepChar ':' l.data with
  | k :: rest =>
    if rest.isEmpty then none
    else some (pyStrip ⟨k⟩, pyStrip (String.intercalate ":" (rest.map (fun c => ⟨c⟩))))
  | [] => none

/-- Modelled from the spec: `frontmatter.loads` of the external
python-frontmatter library. A leading block delimited by lines containing
exactly `---` is parsed as scalar `key: value` pairs (the spec's
list-of-scalars values are not exercised by any theorem below); the body is
the stripped text after the closing delimiter. Without a leading delimiter,
or with no closing delimiter, the metadata is empty and the body is the full
text. -/
def frontmatter_loads (content : String) : List (String × String) × String :=
  match pySplitSep '\n' content with
  | first :: rest =>
    if first = "---" then
      match rest.findIdx? (fun l => l = "---") with
      | some j =>
        let fmLines := rest.take j
        let bodyLines := rest.drop (j + 1)
        (fmLines.filterMap fmParseLine, pyStrip (joinLines bodyLines))
      | none => ([], content)
    else ([], content)
  | [] => ([], content)

/-- Dictionary lookup `fm.get(key)`. -/
def fmGet (fm : List (String × String)) (key : String) : Option String :=
  (fm.find? (fun kv => kv.1 = key)).map (fun kv => kv.2)

/-- `re.search(r'(\d{4}-\d{2}-\d{2})', name)`: leftmost occurrence of four
digits, a dash, two digits, a dash, two digits (no word boundaries in the
source pattern), returned as the matched text. -/
def isoLooseAt (t : List Char) : Option (List Char) :=
  match t with
  | a :: b :: c :: d :: '-' :: e :: f :: '-' :: g :: h :: _ =>
    if [a, b, c, d, e, f, g, h].all Char.isDigit then
      some [a, b, c, d, '-', e, f, '-', g, h]
    else none
  | _ => none

def isoLooseSearch : List Char → Option (List Char)
  | [] => none
  | c :: cs =>
    match isoLooseAt (c :: cs) with
    | some m => some m
    | none => isoLooseSearch cs

/-- First `YYYY-MM-DD` shaped substring of a string, if any. -/
def findIsoDate (s : String) : Option String :=
  (isoLooseSearch s.data).map (fun l => ⟨l⟩)

/-- The last `/`-separated component of a path (`Path(p).name`). -/
def pathName (p : String) : String :=
  (pySplitSep '/' p).getLastD p

/-- `Path(p).stem`: the final component without its last extension. -/
def pathStem (p : String) : String :=
  let name := pathName p
  match splitSepChar '.' name.data with
  | [] => name
  | [_] => name
  | [] :: [_] => name
  | parts => String.intercalate "." ((parts.dropLast).map (fun c => ⟨c⟩))

/-- `Path(p).relative_to(root)`: the path components of `p` below `root`, or
`none` when `p` is not below `root` (pathlib raises `ValueError`). -/
def relativeParts (root p : String) : Option (List String) :=
  if p = root then some []
  else if listIsInit (root ++ "/").data p.data then
    some ((pySplitSep '/' (strDrop p (root.length + 1))).filter (fun s => !(s = "")))
  else none

/-- Python `p.strip()` over a comma split: `[x.strip() for x in s.split(",")]`. -/
def commaSplitStrip (s : String) : List String :=
  (pySplitSep ',' s).map pyStrip

/-- The metadata dictionary built by `_extract_metadata_sync`, with the body
kept alongside (the source pops it off before chunking). -/
structure DocMeta where
  file_path : String
  file_hash : String
  title : String
  category : String
  people : List String
  projects : List String
  date : Option String
  vault : String
  body : String
deriving DecidableEq

/-- indexer.py `_extract_metadata_sync`. Returns `none` when
`Path.relative_to` raises (path not under the chosen vault root), which the
source does not catch. In the frontmatter model the `people`/`projects`
values are scalars, so the source's string branch (comma split) applies. -/
def extract_metadata_sync (cfg : Settings) (file_path content : String) :
    Option DocMeta :=
  let fmBody := frontmatter_loads content
  let fm := fmBody.1
  let body := fmBody.2
  let vault :=
    if strContains file_path cfg.vault_work_path then "work"
    else if strContains file_path cfg.vault_personal_path then "personal"
    else "unknown"
  let root :=
    if vault = "work" then cfg.vault_work_path else cfg.vault_personal_path
  (relativeParts root file_path).map (fun parts =>
    let category := parts.headD "other"
    let title := (fmGet fm "title").getD (pathStem file_path)
    let date :=
      match fmGet fm "date" with
      | some d => if d = "" then findIsoDate (pathName file_path) else some d
      | none => findIsoDate (pathName file_path)
    let people := ((fmGet fm "people").map commaSplitStrip).getD []
    let projects := ((fmGet fm "projects").map commaSplitStrip).getD []
    { file_path := file_path
      file_hash := md5Hex content
      title := title
      category := category
      people := people
      projects := projects
      date := date
      vault := vault
      body := body })

/-! ## Chunker (indexer.py `_chunk_document_sync`)

The section split mirrors `re.split(r'\n\n+|(?=^###?\s)', content, flags=M)`:
sections are separated by runs of two or more newlines (which are consumed)
and cut at zero width before a line-start `##`/`###` heading followed by
whitespace. Empty pieces produced by the Python split are immaterial because
the accumulation loop strips and skips empty sections. -/

/-- Whether the text ahead begins a `##`/`###` heading (`###?\s` after a line
start). -/
def headingAhead : List Char → Bool
  | '#' :: '#' :: '#' :: c :: _ => pyIsSpace c
  | '#' :: '#' :: '#' :: [] => false
  | '#' :: '#' :: c :: _ => pyIsSpace c
  | _ => false

/-- Section splitter. Arguments: text, current piece (reversed), whether the
position is a line start, whether a newline-run separator is being consumed. -/
def mdSectionsAux : List Char → List Char → Bool → Bool → List (List Char)
  | [], acc, _, _ => [acc.reverse]
  | '\n' :: rest, acc, _, true => mdSectionsAux rest acc true true
  | c :: rest, _, _, true => mdSectionsAux rest [c] false false
  | '\n' :: '\n' :: rest, acc, _, false =>
    acc.reverse :: mdSectionsAux rest [] true true
  | '\n' :: rest, acc, _, false => mdSectionsAux rest ('\n' :: acc) true false
  | c :: rest, acc, atStart, false =>
    if atStart && headingAhead (c :: rest) then
      acc.reverse :: mdSectionsAux rest [c] false false
    else mdSectionsAux rest (c :: acc) false false

/-- The sections of a markdown body. -/
def mdSections (content : String) : List String :=
  (mdSectionsAux content.data [] true false).map (fun l => ⟨l⟩)

/-- A chunk before embedding: index and text (the document metadata is merged
in later, identically for every chunk). -/
structure RawChunk where
  chunk_index : Nat
  content : String
deriving DecidableEq

/-- State of the accumulation loop in `_chunk_document_sync`. -/
structure ChunkAccState where
  current_chunk : String
  chunk_index : Nat
  out : List RawChunk
deriving DecidableEq

/-- One iteration of the accumulation loop. -/
def chunkAccStep (cfg : Settings) (st : ChunkAccState) (sec : String) :
    ChunkAccState :=
  let secs := pyStrip sec
  if secs = "" then st
  else if st.current_chunk.length + secs.length > cfg.chunk_size * 4 then
    if !(st.current_chunk = "") then
      let emitted : RawChunk :=
        { chunk_index := st.chunk_index, content := pyStrip st.current_chunk }
      let overlap_start :=
        st.current_chunk.length - cfg.chunk_overlap * 4
      { current_chunk := strDrop st.current_chunk overlap_start ++ "\n\n" ++ secs
        chunk_index := st.chunk_index + 1
        out := st.out ++ [emitted] }
    else { st with current_chunk := secs }
  else if st.current_chunk = "" then { st with current_chunk := secs }
  else { st with current_chunk := st.current_chunk ++ "\n\n" ++ secs }

/-- indexer.py `_chunk_document_sync`: accumulate sections under the soft
character budget `chunk_size * 4`, emitting with a `chunk_overlap * 4`
character overlap carried into the next chunk. -/
def chunk_document_sync (cfg : Settings) (content : String) : List RawChunk :=
  let final := (mdSections content).foldl (chunkAccStep cfg)
    { current_chunk := "", chunk_index := 0, out := [] }
  if !(pyStrip final.current_chunk = "") then
    final.out ++ [{ chunk_index := final.chunk_index
                    content := pyStrip final.current_chunk }]
  else final.out

/-! ## index_file (indexer.py `Indexer.index_file`)

The vector table of the target vault and the FTS store form the mutable
state. The embedder is a function returning `none` on failure (the source
logs and skips the chunk). `cancelAfter` is the cancellation-flag model
described at the top of the file; `checks` counts flag reads. -/

structure SysState where
  table : List DocumentChunk
  fts : List FtsDocument
deriving DecidableEq

structure IndexFileResult where
  st : SysState
  count : Nat
  embed_calls : Nat
  checks : Nat
deriving DecidableEq

/-- indexer.py `Indexer.is_excluded`. -/
def is_excluded (cfg : Settings) (file_path : String) : Bool :=
  cfg.excluded_folders_list.any (fun e => strContains file_path e)

/-- One `DocumentChunk` record as built in the loop of `index_file`. -/
def mkChunkRecord (meta : DocMeta) (mtime : Rat) (ch : RawChunk)
    (v : List Rat) : DocumentChunk :=
  { id := meta.file_hash ++ "_" ++ natToStr ch.chunk_index
    vector := v
    file_path := meta.file_path
    file_hash := meta.file_hash
    mtime := mtime
    title := meta.title
    category := meta.category
    people := meta.people
    projects := meta.projects
    date := meta.date
    vault := meta.vault
    chunk_index := ch.chunk_index
    content := ch.content
    source_type := "markdown"
    page_number := none }

inductive EmbedLoopResult where
  | cancelled (records : List DocumentChunk) (checks embed_calls : Nat)
  | finished (records : List DocumentChunk) (checks embed_calls : Nat)
deriving DecidableEq

/-- The per-chunk loop of `index_file`: before each chunk's embedding call the
cancellation flag is read; if it is set the loop stops with the records built
so far. An embedding failure (`none`) skips the chunk. -/
def embed_loop (cancelAfter : Nat) (embed : String → Option (List Rat))
    (meta : DocMeta) (mtime : Rat) :
    List RawChunk → Nat → List DocumentChunk → Nat → EmbedLoopResult
  | [], checks, records, ecalls => .finished records checks ecalls
  | ch :: rest, checks, records, ecalls =>
    if cancelAfter ≤ checks then .cancelled records (checks + 1) ecalls
    else
      match embed (strTake ch.content 8000) with
      | some v =>
        embed_loop cancelAfter embed meta mtime rest (checks + 1)
          (records ++ [mkChunkRecord meta mtime ch v]) (ecalls + 1)
      | none =>
        embed_loop cancelAfter embed meta mtime rest (checks + 1) records
          (ecalls + 1)

/-- indexer.py `Indexer.index_file`. `content` is the result of `read_file`
(`none` on a read error); `mtime` is the value from the caller or the stat
call. Returns `none` exactly when `extract_metadata` raises. On a mid-file
cancellation the source returns `len(records)` without reaching the
delete/add/FTS block, so the state is returned unchanged. -/
def index_file (cfg : Settings) (cancelAfter : Nat)
    (embed : String → Option (List Rat)) (table_name : String) (st : SysState)
    (checks0 : Nat) (file_path : String) (content : Option String)
    (mtime : Rat) : Option IndexFileResult :=
  if is_excluded cfg file_path then some ⟨st, 0, 0, checks0⟩
  else
    match content with
    | none => some ⟨st, 0, 0, checks0⟩
    | some c =>
      if (pyStrip c).length < 50 then some ⟨st, 0, 0, checks0⟩
      else
        (extract_metadata_sync cfg file_path c).map (fun meta =>
          let chunks := chunk_document_sync cfg meta.body
          if chunks.isEmpty then ⟨st, 0, 0, checks0⟩
          else
            match embed_loop cancelAfter embed meta mtime chunks checks0 [] 0 with
            | .cancelled records checks ecalls =>
              ⟨st, records.length, ecalls, checks⟩
            | .finished records checks ecalls =>
              if records.isEmpty then ⟨st, 0, ecalls, checks⟩
              else
                let table' := tableAdd (tableDeleteHash st.table meta.file_hash) records
                let fts' := upsert_document st.fts file_path meta.title meta.body
                  table_name meta.category meta.people meta.date
                ⟨⟨table', fts'⟩, records.length, ecalls, checks⟩)

/-! ## full_reindex (indexer.py `Indexer.full_reindex`), markdown loop

One vault, with PDF support unavailable (`PDF_ENABLED` false), which leaves
the markdown loop as the whole body. The flag is reset at the start of the
job, so check counting starts at 0: one read before the vault, then one read
before each file, then `index_file`'s per-chunk reads. -/

structure MdFile where
  path : String
  content : Option String
  mtime : Rat
deriving DecidableEq

/-- The `for md_file in md_files` loop: a flag read before each file, break
when set; exceptions from `index_file` propagate. Returns the state, the
total chunk count, and the number of flag reads performed. -/
def full_reindex_md_loop (cfg : Settings) (cancelAfter : Nat)
    (embed : String → Option (List Rat)) (table_name : String) :
    List MdFile → SysState → Nat → Nat → Option (SysState × Nat × Nat)
  | [], st, checks, total => some (st, total, checks)
  | f :: rest, st, checks, total =>
    if cancelAfter ≤ checks then some (st, total, checks + 1)
    else
      match index_file cfg cancelAfter embed table_name st (checks + 1)
        f.path f.content f.mtime with
      | none => none
      | some r =>
        full_reindex_md_loop cfg cancelAfter embed table_name rest r.st
          r.checks (total + r.count)

/-- `full_reindex` restricted to one vault of markdown files: reset flag
(checks start at 0), flag read before the vault, clear the vault's vector
table (`table.delete("id IS NOT NULL")`; the FTS store is not cleared), then
the file loop. -/
def full_reindex_vault (cfg : Settings) (cancelAfter : Nat)
    (embed : String → Option (List Rat)) (table_name : String)
    (files : List MdFile) (st : SysState) : Option (SysState × Nat × Nat) :=
  if cancelAfter ≤ 0 then some (st, 0, 1)
  else full_reindex_md_loop cfg cancelAfter embed table_name files
    ⟨[], st.fts⟩ 1 0

/-! ## incremental_index (indexer.py `Indexer.incremental_index`), markdown
change detection for one file -/

structure IndexedEntry where
  file_hash : String
  mtime : Rat
deriving DecidableEq

/-- Rational subtraction written out over numerator and denominator
(Batteries marks `Rat.sub` irreducible, which blocks evaluation by
reduction); equal to `a - b`. -/
def ratSub (a b : Rat) : Rat :=
  mkRat (a.num * b.den - b.num * a.den) (a.den * b.den)

/-- Python `abs` on a rational (written out so that it evaluates by
reduction). -/
def ratAbs (x : Rat) : Rat :=
  if x < 0 then -x else x

/-- The `indexed_files` map: deduplicate the vault table by `file_path`,
first row wins. -/
def indexed_files_of (table : List DocumentChunk) :
    List (String × IndexedEntry) :=
  table.foldl
    (fun acc r =>
      if acc.any (fun kv => kv.1 = r.file_path) then acc
      else acc ++ [(r.file_path, ⟨r.file_hash, r.mtime⟩)]) []

structure IncStepResult where
  st : SysState
  indexed_count : Nat
  embed_calls : Nat
deriving DecidableEq

/-- One iteration body of the markdown loop of `incremental_index`, for the
file `f`, entered with the cancellation flag observed false. `indexed_files`
is the map loaded at the start of the vault pass. Tier 1: skip when the
stored mtime is nonzero and within one second of the stat value. Tier 2:
re-read and hash; on a hash match update only the stored mtime of the path's
rows. Otherwise hand the file to `index_file` with the stat mtime.
`cancelAfter`/`checks0` feed the per-chunk flag reads inside `index_file`. -/
def incremental_md_file_step (cfg : Settings) (cancelAfter : Nat)
    (embed : String → Option (List Rat)) (table_name : String)
    (indexed_files : List (String × IndexedEntry)) (st : SysState)
    (checks0 : Nat) (f : MdFile) : Option (IncStepResult × Nat) :=
  let current_mtime := f.mtime
  match (indexed_files.find? (fun kv => kv.1 = f.path)).map Prod.snd with
  | some e =>
    if !(e.mtime = 0) && ratAbs (ratSub current_mtime e.mtime) < 1 then
      some (⟨st, 0, 0⟩, checks0)
    else
      match f.content with
      | none => some (⟨st, 0, 0⟩, checks0)
      | some c =>
        if md5Hex c = e.file_hash then
          some (⟨⟨tableUpdateMtime st.table f.path current_mtime, st.fts⟩, 0, 0⟩,
            checks0)
        else
          (index_file cfg cancelAfter embed table_name st checks0 f.path
            (some c) current_mtime).map
            (fun r => (⟨r.st, r.count, r.embed_calls⟩, r.checks))
  | none =>
    (index_file cfg cancelAfter embed table_name st checks0 f.path f.content
      current_mtime).map (fun r => (⟨r.st, r.count, r.embed_calls⟩, r.checks))

/-! ## FTS query escaping and search error handling (fts_index.py) -/

/-- The character transformation of `query.replace('"', '""')`. -/
def doubleQuotes : List Char → List Char
  | [] => []
  | c :: r => if c = '"' then '"' :: '"' :: doubleQuotes r else c :: doubleQuotes r

/-- fts_index.py `_escape_fts_query`: double internal double quotes and wrap
the whole query in double quotes. -/
def escape_fts_query (query : String) : String :=
  ⟨'"' :: (doubleQuotes query.data ++ ['"'])⟩

/-- Helper for `fts5IsPhraseLiteral`: the tail of a quoted FTS5 string after
its opening quote — any characters, with every interior double quote doubled,
ending at a closing quote that ends the token. -/
def ftsQuotedTail : List Char → Bool
  | [] => false
  | c :: r =>
    if c = '"' then
      match r with
      | [] => true
      | '"' :: r2 => ftsQuotedTail r2
      | _ :: _ => false
    else ftsQuotedTail r

/-- Modelled from the spec: the external FTS5 engine lexes a double-quoted
string with doubled interior quotes as one literal phrase token, so none of
its query operators (`:`, `-`, `*`, AND/OR/NOT) apply. This predicate
recognises exactly the strings that form one such token. -/
def fts5IsPhraseLiteral (s : String) : Bool :=
  match s.data with
  | '"' :: rest => ftsQuotedTail rest
  | _ => false

/-- Outcome of executing the FTS5 MATCH statement on the external engine. -/
inductive SqliteOutcome (α : Type) where
  | ok (rows : α)
  | operationalError (msg : String)
deriving DecidableEq

/-- fts_index.py `FTSIndex.search`, exception handling: an
`sqlite3.OperationalError` whose text contains "fts5: syntax error" yields an
empty result list; any other operational error is re-raised. -/
def fts_search_handle (o : SqliteOutcome (List FtsDocument)) :
    Except String (List FtsDocument) :=
  match o with
  | .ok rows => .ok rows
  | .operationalError msg =>
    if strContains msg "fts5: syntax error" then .ok [] else .error msg

/-- fts_index.py `FTSIndex.search`, submission path: the query is escaped and
the escaped form is what reaches the engine (`exec`). -/
def fts_search (exec : String → SqliteOutcome (List FtsDocument))
    (query : String) : Except String (List FtsDocument) :=
  fts_search_handle (exec (escape_fts_query query))

/-! ## The bm25_search call (searcher.py `Searcher.bm25_search`)

`FTSIndex.search` is `def search(self, query, vault="all", limit=30,
person=None)`. `Searcher.bm25_search` forwards
`search(query=..., vault=..., limit=..., person=..., date_from=...,
date_to=...)`. A Python call with a keyword argument that is not a parameter
of the callee raises `TypeError` before the callee body runs. -/

/-- The parameter names of `FTSIndex.search` (fts_index.py lines 149-155,
`self` excluded). -/
def fts_search_param_names : List String :=
  ["query", "vault", "limit", "person"]

/-- The keyword arguments `Searcher.bm25_search` passes to
`FTSIndex.search` (searcher.py lines 243-250). -/
def bm25_forwarded_kwargs : List String :=
  ["query", "vault", "limit", "person", "date_from", "date_to"]

inductive PyCallOutcome (α : Type) where
  | ok (a : α)
  | typeError (kw : String)
deriving DecidableEq

/-- Python call semantics for keyword arguments: the call raises `TypeError`
naming an unexpected keyword when one is passed that the callee does not
declare. -/
def py_kwargs_bind (params kwargs : List String) : PyCallOutcome Unit :=
  match kwargs.find? (fun k => !(params.contains k)) with
  | some kw => .typeError kw
  | none => .ok ()

/-- searcher.py `Searcher.bm25_search`: with no FTS index it returns `[]`;
otherwise it performs the forwarding call to `FTSIndex.search` shown above.
Only the call binding is modelled — on a successful binding the search result
is abstract (`ok`). -/
def bm25_search_outcome (fts_available : Bool) : PyCallOutcome Unit :=
  if !fts_available then .ok ()
  else py_kwargs_bind fts_search_param_names bm25_forwarded_kwargs

/-! ## Dates (Python datetime at day granularity)

temporal.py works with `datetime` values but only ever uses day precision:
`timedelta(days=n)`, `.weekday()`, `.replace(day=1)`, `%Y-%m-%d` formatting,
and one `>` comparison against the reference, where the left operand is a
midnight datetime so the comparison coincides with date order. Dates are
proleptic Gregorian; conversions use the standard civil-from-days/day-count
algorithms. -/

structure PyDate where
  year : Nat
  month : Nat
  day : Nat
deriving DecidableEq

def isLeapYear (y : Nat) : Bool :=
  y % 4 = 0 && (!(y % 100 = 0) || y % 400 = 0)

def daysInMonth (y m : Nat) : Nat :=
  if m = 2 then (if isLeapYear y then 29 else 28)
  else if m = 4 || m = 6 || m = 9 || m = 11 then 30
  else 31

/-- Days since 0000-03-01 of a civil date (valid for year ≥ 1). -/
def daysFromCivil (dt : PyDate) : Nat :=
  let y := if dt.month ≤ 2 then dt.year - 1 else dt.year
  let era := y / 400
  let yoe := y % 400
  let mp := if dt.month > 2 then dt.month - 3 else dt.month + 9
  let doy := (153 * mp + 2) / 5 + dt.day - 1
  let doe := yoe * 365 + yoe / 4 - yoe / 100 + doy
  era * 146097 + doe

/-- Civil date from days since 0000-03-01. -/
def civilFromDays (z : Nat) : PyDate :=
  let era := z / 146097
  let doe := z % 146097
  let yoe := (doe - doe / 1460 + doe / 36524 - doe / 146096) / 365
  let y := yoe + era * 400
  let doy := doe - (365 * yoe + yoe / 4 - yoe / 100)
  let mp := (5 * doy + 2) / 153
  let d := doy - (153 * mp + 2) / 5 + 1
  let m := if mp < 10 then mp + 3 else mp - 9
  ⟨if m ≤ 2 then y + 1 else y, m, d⟩

/-- `dt - timedelta(days=n)`. -/
def subDays (dt : PyDate) (n : Nat) : PyDate :=
  civilFromDays (daysFromCivil dt - n)

/-- Python `datetime.weekday()`: Monday is 0. -/
def pyWeekday (dt : PyDate) : Nat :=
  (daysFromCivil dt + 2) % 7

def pad2 (n : Nat) : String :=
  if n < 10 then "0" ++ natToStr n else natToStr n

def pad4 (n : Nat) : String :=
  if n < 10 then "000" ++ natToStr n
  else if n < 100 then "00" ++ natToStr n
  else if n < 1000 then "0" ++ natToStr n
  else natToStr n

/-- `strftime('%Y-%m-%d')`. -/
def fmtDate (dt : PyDate) : String :=
  pad4 dt.year ++ "-" ++ pad2 dt.month ++ "-" ++ pad2 dt.day

/-- Strict date order (midnight-datetime comparison). -/
def dateLt (a b : PyDate) : Bool :=
  a.year < b.year || (a.year = b.year &&
    (a.month < b.month || (a.month = b.month && a.day < b.day)))

/-- Whether `datetime(y, m, d)` constructs (no `ValueError`). -/
def dateValid (y m d : Nat) : Bool :=
  1 ≤ y && 1 ≤ m && m ≤ 12 && 1 ≤ d && d ≤ daysInMonth y m

/-! ## Regex scanners for temporal.py

All patterns in temporal.py are matched case-insensitively against the
lowercased query (the source lowercases once); every literal in them starts
and ends with a word character, so `\b` at the edges means: the preceding
character (if any) and the following character (if any) are non-word. The
scanners below implement `re.search`'s leftmost match. -/

def boundaryBeforeOk : Option Char → Bool
  | none => true
  | some c => !isWordChar c

def nonWordOrEnd : List Char → Bool
  | [] => true
  | c :: _ => !isWordChar c

/-- One-position match of `\b{pat}\b` for a literal `pat` whose first and last
characters are word characters. -/
def tokenAt (pat : List Char) (prev : Option Char) (t : List Char) : Bool :=
  boundaryBeforeOk prev &&
    match litAt pat t with
    | some rest => nonWordOrEnd rest
    | none => false

def tokenSearchAux (pat : List Char) : Option Char → List Char → Bool
  | prev, [] => tokenAt pat prev []
  | prev, c :: cs => tokenAt pat prev (c :: cs) || tokenSearchAux pat (some c) cs

/-- `re.search(rf'\b{pat}\b', text)` as a Boolean, for the literals of
temporal.py and searcher.py. -/
def containsTok (pat : String) (text : String) : Bool :=
  tokenSearchAux pat.data none text.data

/-- Leftmost scan with a positional matcher returning a value. -/
def scanOpt {α : Type} (f : Option Char → List Char → Option α) :
    Option Char → List Char → Option α
  | prev, [] => f prev []
  | prev, c :: cs =>
    match f prev (c :: cs) with
    | some x => some x
    | none => scanOpt f (some c) cs

/-- One-position match of `\b(?:past|last)\s+(\d+)\s+days?\b`, returning the
captured number. -/
def pastLastNDaysAt (prev : Option Char) (t : List Char) : Option Nat :=
  if !boundaryBeforeOk prev then none
  else
    match (litAt "past".data t).orElse (fun _ => litAt "last".data t) with
    | none => none
    | some r1 =>
      if (r1.takeWhile pyIsSpace).isEmpty then none
      else
        let r2 := r1.dropWhile pyIsSpace
        let ds := r2.takeWhile Char.isDigit
        if ds.isEmpty then none
        else
          let r3 := r2.dropWhile Char.isDigit
          if (r3.takeWhile pyIsSpace).isEmpty then none
          else
            let r4 := r3.dropWhile pyIsSpace
            match litAt "day".data r4 with
            | none => none
            | some r5 =>
              match r5 with
              | 's' :: r6 =>
                if nonWordOrEnd r6 then some (natOfDigits ds) else none
              | _ => if nonWordOrEnd r5 then some (natOfDigits ds) else none

def pastLastNDaysSearch (t : List Char) : Option Nat :=
  scanOpt pastLastNDaysAt none t

/-- One-position match of `\b{kw}\s+{day_name}\b` (for `last <weekday>` and
`on <weekday>`). -/
def kwWordAt (kw word : String) (prev : Option Char) (t : List Char) : Bool :=
  boundaryBeforeOk prev &&
    match litAt kw.data t with
    | none => false
    | some r1 =>
      if (r1.takeWhile pyIsSpace).isEmpty then false
      else
        match litAt word.data (r1.dropWhile pyIsSpace) with
        | some rest => nonWordOrEnd rest
        | none => false

def kwWordSearchAux (kw word : String) : Option Char → List Char → Bool
  | prev, [] => kwWordAt kw word prev []
  | prev, c :: cs =>
    kwWordAt kw word prev (c :: cs) || kwWordSearchAux kw word (some c) cs

def kwWordSearch (kw word : String) (t : List Char) : Bool :=
  kwWordSearchAux kw word none t

/-- One-position match of `\b(\d{4})-(\d{2})-(\d{2})\b`, returning the matched
text. -/
def isoStrictAt (prev : Option Char) (t : List Char) : Option (List Char) :=
  if !boundaryBeforeOk prev then none
  else
    match t with
    | a :: b :: c :: d :: '-' :: e :: f :: '-' :: g :: h :: rest =>
      if [a, b, c, d, e, f, g, h].all Char.isDigit && nonWordOrEnd rest then
        some [a, b, c, d, '-', e, f, '-', g, h]
      else none
    | _ => none

def isoStrictSearch (t : List Char) : Option (List Char) :=
  scanOpt isoStrictAt none t

/-- One-position match of `\b{month_name}\s+(\d{1,2})\b`, returning the
captured day number. The digit group is matched greedily; a run of three or
more digits cannot satisfy the closing `\b` under any backtracking. -/
def monthDayAt (monthName : String) (prev : Option Char) (t : List Char) :
    Option Nat :=
  if !boundaryBeforeOk prev then none
  else
    match litAt monthName.data t with
    | none => none
    | some r1 =>
      if (r1.takeWhile pyIsSpace).isEmpty then none
      else
        let r2 := r1.dropWhile pyIsSpace
        let ds := r2.takeWhile Char.isDigit
        if ds.length = 1 || ds.length = 2 then
          if nonWordOrEnd (r2.dropWhile Char.isDigit) then
            some (natOfDigits ds)
          else none
        else none

def monthDaySearch (monthName : String) (t : List Char) : Option Nat :=
  scanOpt (monthDayAt monthName) none t

/-! ## Temporal parser (temporal.py `parse_temporal_expression`) -/

/-- temporal.py `DateRange`. (The second field is named `end` in the source;
`end` is a Lean keyword.) -/
structure DateRange where
  start : String
  end_ : String
  expression : String
deriving DecidableEq

/-- temporal.py `MONTHS` in its insertion (and hence iteration) order. -/
def MONTHS : List (String × Nat) :=
  [("january", 1), ("jan", 1), ("february", 2), ("feb", 2), ("march", 3),
   ("mar", 3), ("april", 4), ("apr", 4), ("may", 5), ("june", 6), ("jun", 6),
   ("july", 7), ("jul", 7), ("august", 8), ("aug", 8), ("september", 9),
   ("sep", 9), ("sept", 9), ("october", 10), ("oct", 10), ("november", 11),
   ("nov", 11), ("december", 12), ("dec", 12)]

/-- temporal.py `DAYS_OF_WEEK` in iteration order (Monday = 0). -/
def DAYS_OF_WEEK : List (String × Nat) :=
  [("monday", 0), ("mon", 0), ("tuesday", 1), ("tue", 1), ("tues", 1),
   ("wednesday", 2), ("wed", 2), ("thursday", 3), ("thu", 3), ("thurs", 3),
   ("friday", 4), ("fri", 4), ("saturday", 5), ("sat", 5), ("sunday", 6),
   ("sun", 6)]

/-- The whole-calendar-month range of the standalone month-name branch:
year = reference year, minus one when the month number exceeds the reference
month. -/
def monthNameRange (mn : String × Nat) (ref : PyDate) : DateRange :=
  let year := if mn.2 > ref.month then ref.year - 1 else ref.year
  let first : PyDate := ⟨year, mn.2, 1⟩
  let last :=
    if mn.2 = 12 then subDays ⟨year + 1, 1, 1⟩ 1
    else subDays ⟨year, mn.2 + 1, 1⟩ 1
  ⟨fmtDate first, fmtDate last, mn.1⟩

/-- The `<month> <day>` branch body for one month name: build
`datetime(year, m, d)`, roll the year back by one when that date is after the
reference; a `ValueError` from either constructor is caught and the month
loop continues (`none`). -/
def monthDayBranch (mn : String × Nat) (ref : PyDate) (d : Nat) :
    Option DateRange :=
  if dateValid ref.year mn.2 d then
    let target : PyDate := ⟨ref.year, mn.2, d⟩
    if dateLt ref target then
      if dateValid (ref.year - 1) mn.2 d then
        let ds := fmtDate ⟨ref.year - 1, mn.2, d⟩
        some ⟨ds, ds, mn.1 ++ " " ++ natToStr d⟩
      else none
    else
      let ds := fmtDate target
      some ⟨ds, ds, mn.1 ++ " " ++ natToStr d⟩
  else none

/-- temporal.py `parse_temporal_expression`, all branches in source order:
today, yesterday, this week, last week, past/last N days, this month, last
month, standalone month name, `last <weekday>`, `on <weekday>`, ISO date,
`<month> <day>`. -/
def parse_temporal_expression (query : String) (ref : PyDate) :
    Option DateRange :=
  let ql := toLowerStr query
  let t := ql.data
  if containsTok "today" ql then
    let ds := fmtDate ref
    some ⟨ds, ds, "today"⟩
  else if containsTok "yesterday" ql then
    let ds := fmtDate (subDays ref 1)
    some ⟨ds, ds, "yesterday"⟩
  else if containsTok "this week" ql then
    let monday := subDays ref (pyWeekday ref)
    some ⟨fmtDate monday, fmtDate ref, "this week"⟩
  else if containsTok "last week" ql then
    let this_monday := subDays ref (pyWeekday ref)
    some ⟨fmtDate (subDays this_monday 7), fmtDate (subDays this_monday 1),
      "last week"⟩
  else
    match pastLastNDaysSearch t with
    | some n =>
      some ⟨fmtDate (subDays ref n), fmtDate ref,
        "last " ++ natToStr n ++ " days"⟩
    | none =>
      if containsTok "this month" ql then
        some ⟨fmtDate ⟨ref.year, ref.month, 1⟩, fmtDate ref, "this month"⟩
      else if containsTok "last month" ql then
        let last_prev := subDays ⟨ref.year, ref.month, 1⟩ 1
        some ⟨fmtDate ⟨last_prev.year, last_prev.month, 1⟩, fmtDate last_prev,
          "last month"⟩
      else
        match MONTHS.findSome? (fun mn =>
          if containsTok mn.1 ql then some (monthNameRange mn ref) else none) with
        | some r => some r
        | none =>
          match DAYS_OF_WEEK.findSome? (fun dn =>
            if kwWordSearch "last" dn.1 t then some dn else none) with
          | some dn =>
            let days_ago0 := (pyWeekday ref + 7 - dn.2) % 7
            let days_ago := if days_ago0 = 0 then 7 else days_ago0
            let ds := fmtDate (subDays ref days_ago)
            some ⟨ds, ds, "last " ++ dn.1⟩
          | none =>
            match DAYS_OF_WEEK.findSome? (fun dn =>
              if kwWordSearch "on" dn.1 t then some dn else none) with
            | some dn =>
              let days_ago := (pyWeekday ref + 7 - dn.2) % 7
              let ds := fmtDate (subDays ref days_ago)
              some ⟨ds, ds, "on " ++ dn.1⟩
            | none =>
              match isoStrictSearch t with
              | some m =>
                let s : String := ⟨m⟩
                some ⟨s, s, s⟩
              | none =>
                MONTHS.findSome? (fun mn =>
                  match monthDaySearch mn.1 t with
                  | some d => monthDayBranch mn ref d
                  | none => none)

/-- searcher.py `Searcher.hybrid_search`, reduced to its failure-relevant
slice: the temporal parse happens first (it supplies `date_from`/`date_to`),
then `bm25_search` and `vector_search` are gathered; the `bm25_search` call
raises before anything else can complete, and `asyncio.gather` propagates the
exception, so the outcome of the hybrid call is the outcome of the binding of
the forwarded keyword arguments. The cleaned-query computation cannot affect
this and is not repeated here. -/
def hybrid_search_outcome (query : String) (ref : PyDate)
    (fts_available : Bool) : PyCallOutcome Unit :=
  let _date_range := parse_temporal_expression query ref
  bm25_search_outcome fts_available

/-! ## Person-name detection (searcher.py `detect_names`,
`has_person_query_intent`) -/

/-- searcher.py `COMMON_WORDS`, transcribed in source order (the source uses a
set; membership is what matters). -/
def COMMON_WORDS : List String :=
  ["the", "a", "an", "and", "or", "but", "in", "on", "at", "to", "for",
   "of", "with", "by", "from", "as", "is", "was", "are", "were", "been",
   "be", "have", "has", "had", "do", "does", "did", "will", "would", "could",
   "should", "may", "might", "must", "shall", "can", "need", "dare", "ought",
   "used", "what", "who", "which", "when", "where", "why", "how", "all",
   "each", "every", "both", "few", "more", "most", "other", "some", "such",
   "no", "nor", "not", "only", "own", "same", "so", "than", "too", "very",
   "just", "also", "now", "here", "there", "then", "once", "about", "after",
   "before", "between", "into", "through", "during", "above", "below",
   "meeting", "meetings", "one-on-one", "1:1", "prep", "prepare", "notes",
   "summary", "action", "items", "discussion", "talked", "discussed", "said",
   "mentioned", "topic", "topics", "project", "team", "work", "update",
   "weekly", "daily", "monthly", "review", "feedback", "performance",
   "API", "UI", "UX", "SQL", "AWS", "GCP", "PR", "CI", "CD",
   "january", "february", "march", "april", "may", "june",
   "july", "august", "september", "october", "november", "december",
   "jan", "feb", "mar", "apr", "jun", "jul", "aug", "sep", "sept", "oct",
   "nov", "dec",
   "monday", "tuesday", "wednesday", "thursday", "friday", "saturday",
   "sunday",
   "mon", "tue", "wed", "thu", "fri", "sat", "sun",
   "highlights", "summary", "overview", "report", "analysis"]

/-- `re.sub(r'[^\w]', '', word)`: keep only word characters. -/
def cleanWord (w : String) : String :=
  ⟨w.data.filter isWordChar⟩

/-- `clean[0].isupper()`. -/
def headIsUpper (s : String) : Bool :=
  match s.data with
  | [] => false
  | c :: _ => c.isUpper

/-- Python `str.isupper()` (ASCII model: the cased characters are the
letters): at least one letter and every letter uppercase. -/
def pyIsUpperStr (s : String) : Bool :=
  s.data.any Char.isAlpha && s.data.all (fun c => !c.isAlpha || c.isUpper)

/-- `any(c.isdigit() for c in clean)`. -/
def hasDigit (s : String) : Bool :=
  s.data.any Char.isDigit

/-- The guard chain of the `detect_names` loop body for the word at position
`i`, collapsed into one conjunction (the source nests the same tests as
successive `if`/`continue` guards): nonempty after punctuation strip, first
character uppercase, not all-caps, lowercased form not a stopword, and for
position 0 additionally at most 15 characters and digit-free. -/
def name_candidate_cond (i : Nat) (word : String) : Bool :=
  let clean := cleanWord word
  !(clean = "") && (headIsUpper clean && !(pyIsUpperStr clean)) &&
    !(COMMON_WORDS.contains (toLowerStr clean)) &&
    (decide (0 < i) || (decide (clean.length ≤ 15) && !(hasDigit clean)))

/-- The loop body of `detect_names`: add the cleaned word when it passes the
candidate guards (`names.add` on the source's set: no duplicates). -/
def detect_step (names : List String) (iw : Nat × String) : List String :=
  if name_candidate_cond iw.1 iw.2 then
    if names.contains (cleanWord iw.2) then names
    else names ++ [cleanWord iw.2]
  else names

/-- searcher.py `detect_names`: whitespace-split the query and collect the
punctuation-stripped words passing `name_candidate_cond`. The source collects
into a `set`; the embedding keeps first-occurrence order, which fixes one
iteration order of that set. -/
def detect_names (query : String) : List String :=
  (pySplitWs query).enum.foldl detect_step []

/-- The disjunction of the `person_patterns` regexes of
`has_person_query_intent`, applied to the lowercased query. The class
`[- ]` in `one[- ]on[- ]one` is expanded into its four literal variants. -/
def person_patterns_hit (ql : String) : Bool :=
  containsTok "1:1" ql ||
  ["one-on-one", "one-on one", "one on-one", "one on one"].any
    (fun v => containsTok v ql) ||
  containsTok "meeting with" ql ||
  containsTok "prep for" ql ||
  containsTok "prepare for" ql ||
  containsTok "catch up with" ql ||
  containsTok "sync with" ql

/-- searcher.py `has_person_query_intent`: a pattern hit, or at least one
detected name. -/
def has_person_query_intent (query : String) : Bool :=
  person_patterns_hit (toLowerStr query) || !(detect_names query).isEmpty

/-- searcher.py `hybrid_search`, the BM25-query selection: with person intent
and nonempty detected names the BM25 query is the space-joined names,
otherwise the cleaned search query itself. -/
def hybrid_bm25_query (search_query : String) : String :=
  let detected_names := detect_names search_query
  let is_person_query :=
    has_person_query_intent search_query || !detected_names.isEmpty
  if is_person_query && !detected_names.isEmpty then
    String.intercalate " " detected_names
  else search_query

/-! ## Claim-side definitions for the query classifier (C8)

These follow the claim's words rather than the source, for comparison with
the source-derived functions above. A "token" is a whitespace-separated word
with its punctuation stripped; "outside the stopword list" is membership of
the lowercased token, the only reading under which the lowercase stopwords
compare against capitalized tokens at all. -/

/-- The claim's candidate-person-token predicate at position `i`. -/
def spec_candidate_token (i : Nat) (word : String) : Bool :=
  let tok := cleanWord word
  !(tok = "") && (headIsUpper tok && !(pyIsUpperStr tok)) &&
    !(COMMON_WORDS.contains (toLowerStr tok)) &&
    (decide (0 < i) || (decide (tok.length ≤ 15) && !(hasDigit tok)))

/-- The claim's pattern list: `1:1`, `one-on-one` (either separator),
`meeting with`, `prep for`/`prepare for`, `catch up with`, `sync with`. -/
def spec_pattern_hit (ql : String) : Bool :=
  containsTok "1:1" ql ||
  ["one-on-one", "one-on one", "one on-one", "one on one"].any
    (fun v => containsTok v ql) ||
  containsTok "meeting with" ql ||
  containsTok "prep for" ql ||
  containsTok "prepare for" ql ||
  containsTok "catch up with" ql ||
  containsTok "sync with" ql

/-- The claim's person-intent predicate: at least one candidate token, or a
pattern match. -/
def spec_person_intent (query : String) : Bool :=
  (pySplitWs query).enum.any (fun iw => spec_candidate_token iw.1 iw.2) ||
    spec_pattern_hit (toLowerStr query)

/-! ## Bearer-token authentication (main.py) -/

/-- main.py `verify_token` (lines 40-43): 401 unless the presented credential
equals the configured token. -/
def verify_token (api_token credentials : String) : Except Nat String :=
  if !(credentials = api_token) then .error 401 else .ok credentials

/-- Modelled from the spec: FastAPI runs a route's declared security
dependencies before its handler; the first failing dependency's status is the
response, otherwise the handler runs. -/
def route_status (deps : List (Option String → Option Nat))
    (auth : Option String) (handlerStatus : Nat) : Nat :=
  match deps.findSome? (fun dep => dep auth) with
  | some code => code
  | none => handlerStatus

/-- What attaching `verify_token` behind `Security(HTTPBearer())` would
contribute as a dependency: 403 for a missing Authorization header
(HTTPBearer's own rejection), else `verify_token`'s outcome. -/
def verify_token_dependency (api_token : String) (auth : Option String) :
    Option Nat :=
  match auth with
  | none => some 403
  | some tok =>
    match verify_token api_token tok with
    | .error code => some code
    | .ok _ => none

/-- The dependency list of `POST /search` (main.py line 434:
`async def search(request: SearchRequest)` — no Security/Depends parameter). -/
def search_route_deps : List (Option String → Option Nat) := []

/-- The dependency list of `POST /index/start` (main.py line 698:
`async def start_indexing(request, background_tasks)`). -/
def index_start_route_deps : List (Option String → Option Nat) := []

/-- The dependency list of `POST /index/cancel/{job_id}` (main.py line 780:
`async def cancel_job(job_id: str)`). -/
def index_cancel_route_deps : List (Option String → Option Nat) := []

def search_request_status (auth : Option String) (handlerStatus : Nat) : Nat :=
  route_status search_route_deps auth handlerStatus

def index_start_request_status (auth : Option String) (handlerStatus : Nat) :
    Nat :=
  route_status index_start_route_deps auth handlerStatus

def index_cancel_request_status (auth : Option String) (handlerStatus : Nat) :
    Nat :=
  route_status index_cancel_route_deps auth handlerStatus

/-! ## Note endpoints and path handling (main.py `get_note`) -/

/-- Path components with empty and `.` pieces collapsed (pathlib parsing). -/
def posixParts (p : String) : List String :=
  (pySplitSep '/' p).filter (fun s => !(s = "") && !(s = "."))

/-- Modelled from the spec: pathlib's `/` join (external library). An
absolute right operand replaces the base entirely; otherwise the operand's
components go under the base. Spurious slashes and `.` are collapsed, `..`
components are kept. -/
def pyPathJoin (base p : String) : String :=
  if startsWithStr p "/" then "/" ++ String.intercalate "/" (posixParts p)
  else if posixParts p = [] then base
  else base ++ "/" ++ String.intercalate "/" (posixParts p)

/-- main.py `get_note` (lines 1001-1069), markdown path: the traversal guard
(400 when the path contains `..` or starts with `/`), the `work/`/`personal/`
prefix strip, resolution against the work then the personal vault root (the
bare path, then with `.md` appended), 404 when nothing exists, otherwise the
file that gets read, with its content. `fs` maps the existing files' resolved
paths to their contents. -/
def get_note (cfg : Settings) (fs : String → Option String) (path : String) :
    Except Nat (String × String) :=
  if strContains path ".." || startsWithStr path "/" then .error 400
  else
    let path1 :=
      if startsWithStr path "work/" then strDrop path 5
      else if startsWithStr path "personal/" then strDrop path 9
      else path
    match [cfg.vault_work_path, cfg.vault_personal_path].findSome? (fun vp =>
      let t1 := pyPathJoin vp path1
      match fs t1 with
      | some c => some (t1, c)
      | none =>
        let t2 := pyPathJoin vp (path1 ++ ".md")
        match fs t2 with
        | some c => some (t2, c)
        | none => none) with
    | some fc => .ok fc
    | none => .error 404

/-- Whether a resolved path lies at or below a root directory. -/
def underRoot (root p : String) : Bool :=
  p = root || startsWithStr p (root ++ "/")

deriving instance DecidableEq for Except

/-! ## Concrete scenario inputs used by the evaluation theorems and
witnesses -/

def demoPath : String := "/data/obsidian/work/notes/demo.md"

def demoContent1 : String :=
  "Weekly sync notes. We discussed the embedding rollout and the retrieval pipeline budget in depth."

def demoContent2 : String :=
  "Weekly sync notes. The rollout was postponed and the budget was cut after the quarterly review."

/-- An embedder that always succeeds. -/
def demoEmbed : String → Option (List Rat) := fun _ => some [1]

def emptyState : SysState := ⟨[], []⟩

/-- First ingest of the demo file. -/
def demoIngest1 : Option IndexFileResult :=
  index_file defaultSettings 1000 demoEmbed "work" emptyState 0 demoPath
    (some demoContent1) 100

/-- Re-ingest of the same path after its content changed. -/
def demoIngest2 : Option IndexFileResult :=
  demoIngest1.bind (fun r =>
    index_file defaultSettings 1000 demoEmbed "work" r.st 0 demoPath
      (some demoContent2) 200)

/-- A markdown file with a frontmatter block. -/
def fmContent : String :=
  "---\ntitle: Demo Note\n---\nBody text for the demo note, long enough to pass the fifty character short-document check."

def fmIngest : Option IndexFileResult :=
  index_file defaultSettings 1000 demoEmbed "work" emptyState 0 demoPath
    (some fmContent) 100

/-- A configuration with a small chunk budget (`chunk_size * 4 = 120`
characters), so that a short document already splits into two chunks. -/
def smallChunkCfg : Settings :=
  { defaultSettings with chunk_size := 30, chunk_overlap := 5 }

def paraA : String :=
  "Alpha section filled with sample sentences so the running buffer grows."

def paraB : String :=
  "Beta section continuing the document with more prose for a second chunk."

/-- A document that produces two chunks under `smallChunkCfg`. -/
def longContent : String :=
  paraA ++ "\n\n" ++ paraB

/-- The metadata `_extract_metadata_sync` produces for `longContent` at
`demoPath`. -/
def longMeta : DocMeta :=
  { file_path := demoPath
    file_hash := md5Hex longContent
    title := "demo"
    category := "notes"
    people := []
    projects := []
    date := none
    vault := "work"
    body := longContent }

/-- Ingest of the two-chunk document with the cancellation flag raised after
the first per-chunk check. -/
def cancelIngest : Option IndexFileResult :=
  index_file smallChunkCfg 1 demoEmbed "work" emptyState 0 demoPath
    (some longContent) 100

def refFeb : PyDate := ⟨2026, 2, 15⟩

/-- A filesystem with one file outside the vault roots. -/
def fsDemo : String → Option String := fun p =>
  if p = "/etc/passwd" then some "root:x:0:0:root:/root:/bin/sh" else none

/-- A vector record for the demo file as stored by a previous ingest. -/
def recC5 : DocumentChunk :=
  { id := md5Hex demoContent1 ++ "_0"
    vector := [1]
    file_path := demoPath
    file_hash := md5Hex demoContent1
    mtime := 100
    title := "demo"
    category := "notes"
    people := []
    projects := []
    date := none
    vault := "work"
    chunk_index := 0
    content := demoContent1
    source_type := "markdown"
    page_number := none }

/-- The demo file touched: same content, mtime moved from 100 to 250. -/
def fileC5 : MdFile := ⟨demoPath, some demoContent1, 250⟩

/-- An FTS engine that reports an FTS5 syntax error on every statement. -/
def execSyntaxErr : String → SqliteOutcome (List FtsDocument) :=
  fun _ => .operationalError "fts5: syntax error"

/-- The records carried by either outcome of the embedding loop. -/
def loopRecords : EmbedLoopResult → List DocumentChunk
  | .cancelled records _ _ => records
  | .finished records _ _ => records

/-- The result of the first demo ingest (`demoIngest1` is `some` of this). -/
def demoOut1 : IndexFileResult := demoIngest1.getD ⟨emptyState, 0, 0, 0⟩

/-! ## Theorems -/

set_option maxRecDepth 100000
set_option maxHeartbeats 1000000

/-- C1: evaluation at the failing input. Re-ingesting `demoPath` after its
content (and hence its MD5 hash) changed does not replace the prior chunk
set: `index_file` deletes prior rows by the new hash only, so a row with the
old `file_hash` remains for the path, and not every row for the path carries
the new hash — contrary to the claim that none of the former and all of the
latter hold. -/
theorem index_file_leaves_stale_old_hash_records :
    md5Hex demoContent1 ≠ md5Hex demoContent2 ∧
    demoIngest2.map (fun r =>
      r.st.table.any (fun rec =>
        rec.file_path = demoPath && rec.file_hash = md5Hex demoContent1)) =
      some true ∧
    demoIngest2.map (fun r =>
      r.st.table.all (fun rec =>
        !(rec.file_path = demoPath) || rec.file_hash = md5Hex demoContent2)) =
      some false := by
  decide

/-- C2: evaluation at the failing input. `FTSIndex.search` accepts neither
`date_from` nor `date_to`; `Searcher.bm25_search` nevertheless forwards both
keywords, so with an FTS index present the call raises `TypeError` — in
particular the hybrid search for the temporal query "highlights this week"
(whose temporal range does parse) errors instead of completing. -/
theorem fts_search_lacks_date_filters :
    fts_search_param_names.contains "date_from" = false ∧
    fts_search_param_names.contains "date_to" = false ∧
    bm25_search_outcome true = .typeError "date_from" ∧
    (parse_temporal_expression "highlights this week" refFeb).isSome = true ∧
    hybrid_search_outcome "highlights this week" refFeb true =
      .typeError "date_from" := by
  decide

/-- C7: evaluation at the failing input. For the query "Feb 10" (reference
date 2026-02-15) the parser returns the whole-February range produced by the
standalone month-name branch, which runs before the `<month> <day>` branch
and matches `feb`; the claimed single-day range for February 10 is not
returned, even though the `<month> <day>` pattern itself matches the query. -/
theorem month_day_query_returns_whole_month :
    parse_temporal_expression "Feb 10" refFeb =
      some ⟨"2026-02-01", "2026-02-28", "feb"⟩ ∧
    monthDaySearch "feb" (toLowerStr "Feb 10").data = some 10 ∧
    ¬ parse_temporal_expression "Feb 10" refFeb =
      some ⟨"2026-02-10", "2026-02-10", "feb 10"⟩ := by
  decide

/-- C9: evaluation at the failing input. The routes `POST /search`,
`POST /index/start` and `POST /index/cancel/{id}` declare no security
dependency, so a request with a missing or mismatched bearer token is handed
to the handler unmodified (its status is the handler's status, never 401) —
while the unused `verify_token` dependency would have rejected a wrong token
with 401 (and a missing header with HTTPBearer's 403). -/
theorem non_public_endpoints_lack_auth_rejection :
    ∀ (auth : Option String) (handlerStatus : Nat),
      search_request_status auth handlerStatus = handlerStatus ∧
      index_start_request_status auth handlerStatus = handlerStatus ∧
      index_cancel_request_status auth handlerStatus = handlerStatus ∧
      verify_token_dependency "changeme" (some "wrong-token") = some 401 ∧
      verify_token_dependency "changeme" none = some 403 := by
  intro auth handlerStatus
  exact ⟨rfl, rfl, rfl, by decide, rfl⟩

/-- C10: evaluation at the failing input. The traversal guard does reject
paths containing `..` or starting with `/` with 400, but the `work/` prefix
strip runs after the guard: the path `work//etc/passwd` passes the guard,
the strip leaves `/etc/passwd`, and the pathlib join replaces the vault root
with that absolute path, so `get_note` reads a file outside both vault
roots. -/
theorem get_note_escapes_vault_roots :
    get_note defaultSettings fsDemo "work//etc/passwd" =
      .ok ("/etc/passwd", "root:x:0:0:root:/root:/bin/sh") ∧
    underRoot defaultSettings.vault_work_path "/etc/passwd" = false ∧
    underRoot defaultSettings.vault_personal_path "/etc/passwd" = false ∧
    get_note defaultSettings fsDemo "../secrets.md" = .error 400 ∧
    get_note defaultSettings fsDemo "/etc/passwd" = .error 400 := by
  decide

/-- C3, counterexample: for a markdown file with a frontmatter block, a
successful ingest leaves the keyword record's `file_hash` (MD5 of the body
passed to the FTS upsert) different from the `file_hash` of every vector
record for the path (MD5 of the full raw content), because the frontmatter
split makes the body differ from the content. -/
theorem keyword_vector_hash_mismatch_on_frontmatter :
    (frontmatter_loads fmContent).2 ≠ fmContent ∧
    (fmIngest.bind (fun r =>
      (ftsLookup r.st.fts demoPath).map (fun fr =>
        decide (r.st.table ≠ []) &&
          r.st.table.all (fun rec => !(rec.file_hash = fr.file_hash))))) =
      some true := by
  decide

/-- C4, counterexample: indexing a two-chunk document with the cancellation
flag observed at the second per-chunk check returns a partial count of 1 and
performs exactly one embedding call, but commits nothing — the state is
unchanged, so the returned count exceeds the number of chunk records actually
committed (zero). -/
theorem midfile_cancel_counts_uncommitted_records :
    cancelIngest.map (fun r => (r.count, r.embed_calls, r.checks)) =
      some (1, 1, 2) ∧
    cancelIngest.map (fun r => decide (r.st = emptyState)) = some true ∧
    (chunk_document_sync smallChunkCfg longContent).length = 2 := by
  decide

/-- Every string obtained by doubling the double quotes of `l` and appending a
closing quote is a valid quoted-string tail for the FTS5 lexer. -/
theorem ftsQuotedTail_doubleQuotes (l : List Char) :
    ftsQuotedTail (doubleQuotes l ++ ['"']) = true := by
  induction l with
  | nil => rfl
  | cons c r ih =>
    by_cases hc : c = '"'
    · subst hc
      simp [doubleQuotes, ftsQuotedTail, ih]
    · simp only [doubleQuotes, if_neg hc]
      unfold ftsQuotedTail
      simp [hc, ih]

/-- C6: for every query string — in particular ones containing the
FTS5-special characters `:`, `-`, `*` — the keyword search wraps the query as
a quoted phrase with internal double quotes doubled, which the engine lexes
as one literal phrase (so its boolean operators are never triggered), and a
parse error from the engine yields an empty result list instead of an
exception. -/
theorem fts_query_quoted_and_parse_error_empty :
    ∀ (q msg : String) (exec : String → SqliteOutcome (List FtsDocument)),
      fts5IsPhraseLiteral (escape_fts_query q) = true ∧
      (exec (escape_fts_query q) = .operationalError msg →
        strContains msg "fts5: syntax error" = true →
        fts_search exec q = .ok []) := by
  intro q msg exec
  constructor
  · exact ftsQuotedTail_doubleQuotes q.data
  · intro hexec hmsg
    simp [fts_search, fts_search_handle, hexec, hmsg]

/-- C6 witness: the theorem applied to a query full of FTS special
characters and an engine that reports a syntax error. -/
theorem fts_query_quoted_witness :
    fts5IsPhraseLiteral (escape_fts_query "note: -foo* \"bar\"") = true ∧
    fts_search execSyntaxErr "note: -foo* \"bar\"" = .ok [] :=
  ⟨(fts_query_quoted_and_parse_error_empty "note: -foo* \"bar\""
      "fts5: syntax error" execSyntaxErr).1,
   (fts_query_quoted_and_parse_error_empty "note: -foo* \"bar\""
      "fts5: syntax error" execSyntaxErr).2 rfl (by decide)⟩

/-- C5: for an indexed markdown file whose on-disk mtime no longer matches
the stored mtime within the one-second tolerance (or whose stored mtime is
the falsy 0.0) but whose content hash equals the stored `file_hash`, the
incremental pass performs zero embedding calls for the file and its only
effect is `tableUpdateMtime`: the stored mtime of the path's vector records
is set to the stat value and every other field of every record — and the
whole keyword store — is left unchanged. -/
theorem touch_only_updates_stored_mtime :
    ∀ (cfg : Settings) (cancelAfter : Nat)
      (embed : String → Option (List Rat)) (table_name : String)
      (table : List DocumentChunk) (fts : List FtsDocument) (checks0 : Nat)
      (f : MdFile) (e : IndexedEntry) (c : String),
      ((indexed_files_of table).find? (fun kv => kv.1 = f.path)).map Prod.snd =
        some e →
      (!(e.mtime = 0) && decide (ratAbs (ratSub f.mtime e.mtime) < 1)) =
        false →
      f.content = some c →
      md5Hex c = e.file_hash →
      incremental_md_file_step cfg cancelAfter embed table_name
        (indexed_files_of table) ⟨table, fts⟩ checks0 f =
        some (⟨⟨tableUpdateMtime table f.path f.mtime, fts⟩, 0, 0⟩, checks0) := by
  intro cfg cancelAfter embed table_name table fts checks0 f e c hfind htier1 hc
    hhash
  unfold incremental_md_file_step
  rw [hfind, hc]
  simp [htier1, hhash]

/-- C5 witness: the theorem applied to a one-record table whose file was
touched (mtime 100 → 250, content unchanged). -/
theorem touch_only_updates_stored_mtime_witness :
    incremental_md_file_step defaultSettings 1000 demoEmbed "work"
      (indexed_files_of [recC5]) ⟨[recC5], []⟩ 0 fileC5 =
      some (⟨⟨tableUpdateMtime [recC5] demoPath 250, []⟩, 0, 0⟩, 0) :=
  touch_only_updates_stored_mtime defaultSettings 1000 demoEmbed "work" [recC5]
    [] 0 fileC5 ⟨md5Hex demoContent1, 100⟩ demoContent1 (by decide) (by decide)
    rfl rfl

/-- One `detect_names` loop step leaves the accumulator empty exactly when it
was empty and the word is not a candidate. -/
theorem detect_step_isEmpty (names : List String) (iw : Nat × String) :
    (detect_step names iw).isEmpty =
      (names.isEmpty && !(name_candidate_cond iw.1 iw.2)) := by
  unfold detect_step
  by_cases h : name_candidate_cond iw.1 iw.2
  · simp only [h, if_true, Bool.not_true, Bool.and_false]
    by_cases hm : names.contains (cleanWord iw.2)
    · rw [if_pos hm]
      cases names with
      | nil => simp at hm
      | cons a l => simp
    · rw [if_neg hm]
      cases names <;> simp
  · simp [h]

/-- The `detect_names` fold leaves the accumulator empty exactly when it was
empty and no word is a candidate. -/
theorem foldl_detect_isEmpty (l : List (Nat × String)) :
    ∀ acc : List String,
      (l.foldl detect_step acc).isEmpty =
        (acc.isEmpty &&
          !(l.any (fun iw => name_candidate_cond iw.1 iw.2))) := by
  induction l with
  | nil => intro acc; simp
  | cons x xs ih =>
    intro acc
    simp only [List.foldl_cons, List.any_cons, ih, detect_step_isEmpty]
    cases name_candidate_cond x.1 x.2 <;> cases acc.isEmpty <;> simp

/-- `detect_names` is empty exactly when no position/word pair satisfies the
candidate condition. -/
theorem detect_names_isEmpty (q : String) :
    (detect_names q).isEmpty =
      !((pySplitWs q).enum.any (fun iw => name_candidate_cond iw.1 iw.2)) := by
  show ((pySplitWs q).enum.foldl detect_step []).isEmpty = _
  rw [foldl_detect_isEmpty]
  simp

/-- C8: a cleaned query has person intent exactly when it contains at least
one candidate person token (capitalized, not all-caps, outside the stopword
list, with sentence-initial tokens additionally at most 15 characters and
digit-free) or matches one of the patterns `1:1`, `one-on-one`,
`meeting with`, `prep for`/`prepare for`, `catch up with`, `sync with`; and
the BM25 query submitted by hybrid search is the space-joined candidate
tokens exactly when candidate tokens exist (intent then being implied),
otherwise the cleaned query itself. -/
theorem person_intent_iff_candidates_or_patterns :
    ∀ q : String,
      has_person_query_intent q = spec_person_intent q ∧
      hybrid_bm25_query q =
        (if (pySplitWs q).enum.any (fun iw => spec_candidate_token iw.1 iw.2)
         then String.intercalate " " (detect_names q) else q) := by
  intro q
  have hcond : (fun (iw : Nat × String) => spec_candidate_token iw.1 iw.2) =
      (fun (iw : Nat × String) => name_candidate_cond iw.1 iw.2) := rfl
  have hne : (!(detect_names q).isEmpty) =
      (pySplitWs q).enum.any (fun iw => name_candidate_cond iw.1 iw.2) := by
    rw [detect_names_isEmpty, Bool.not_not]
  constructor
  · show (person_patterns_hit (toLowerStr q) || !(detect_names q).isEmpty) = _
    rw [hne]
    show _ = ((pySplitWs q).enum.any (fun iw => spec_candidate_token iw.1 iw.2)
      || spec_pattern_hit (toLowerStr q))
    rw [hcond, Bool.or_comm]
    rfl
  · show (if (has_person_query_intent q || !(detect_names q).isEmpty) &&
        !(detect_names q).isEmpty then
          String.intercalate " " (detect_names q) else q) = _
    rw [hcond]
    have hb : ((has_person_query_intent q || !(detect_names q).isEmpty) &&
        !(detect_names q).isEmpty) = !(detect_names q).isEmpty := by
      cases hd : (detect_names q).isEmpty <;>
        simp [has_person_query_intent, hd]
    rw [hb, hne]

/-- The fields of the metadata produced by `_extract_metadata_sync`: the path,
the MD5 of the full raw content, and the frontmatter-stripped body. -/
theorem extract_metadata_fields (cfg : Settings) (fp c : String) (m : DocMeta)
    (h : extract_metadata_sync cfg fp c = some m) :
    m.file_path = fp ∧ m.file_hash = md5Hex c ∧
      m.body = (frontmatter_loads c).2 := by
  simp only [extract_metadata_sync, Option.map_eq_some'] at h
  obtain ⟨parts, _, hm⟩ := h
  subst hm
  exact ⟨rfl, rfl, rfl⟩

/-- Every record built by the embedding loop carries the metadata's
`file_hash`. -/
theorem embed_loop_records_hash (cancelAfter : Nat)
    (embed : String → Option (List Rat)) (meta : DocMeta) (mtime : Rat) :
    ∀ (chunks : List RawChunk) (checks : Nat) (recs : List DocumentChunk)
      (ecalls : Nat),
      (∀ r ∈ recs, r.file_hash = meta.file_hash) →
      ∀ r ∈ loopRecords (embed_loop cancelAfter embed meta mtime chunks checks
        recs ecalls), r.file_hash = meta.file_hash := by
  intro chunks
  induction chunks with
  | nil => intro checks recs ecalls hrecs; simpa [embed_loop, loopRecords]
  | cons ch rest ih =>
    intro checks recs ecalls hrecs
    unfold embed_loop
    by_cases hc : cancelAfter ≤ checks
    · simpa [hc, loopRecords] using hrecs
    · rw [if_neg hc]
      cases he : embed (strTake ch.content 8000) with
      | some v =>
        refine ih (checks + 1) _ (ecalls + 1) ?_
        intro r hr
        rcases List.mem_append.mp hr with h1 | h2
        · exact hrecs r h1
        · rcases List.mem_singleton.mp h2 with rfl
          rfl
      | none => exact ih (checks + 1) recs (ecalls + 1) hrecs

/-- After the replace branch of `upsert_document`, the first record found for
the path is the fresh record. -/
theorem find_map_replace (t : List FtsDocument) (fp : String)
    (rec0 : FtsDocument) (hrec : rec0.file_path = fp)
    (h : t.any (fun r => r.file_path = fp) = true) :
    (t.map (fun r => if r.file_path = fp then rec0 else r)).find?
      (fun r => r.file_path = fp) = some rec0 := by
  induction t with
  | nil => simp at h
  | cons r rs ih =>
    by_cases hr : r.file_path = fp
    · simp [List.find?, hr, hrec]
    · simp only [List.any_cons, hr] at h
      simp only [List.map_cons, if_neg hr, List.find?]
      simp only [hr, decide_False]
      exact ih (by simpa using h)

/-- After the insert branch of `upsert_document`, the record found for the
path is the appended fresh record. -/
theorem find_append_new (t : List FtsDocument) (fp : String)
    (rec0 : FtsDocument) (hrec : rec0.file_path = fp)
    (h : t.any (fun r => r.file_path = fp) = false) :
    (t ++ [rec0]).find? (fun r => r.file_path = fp) = some rec0 := by
  induction t with
  | nil => simp [List.find?, hrec]
  | cons r rs ih =>
    simp only [List.any_cons, Bool.or_eq_false_iff] at h
    simp only [List.cons_append, List.find?, h.1, decide_False]
    exact ih h.2

/-- `upsert_document` leaves exactly one record visible for the path: the
fresh one, whose `file_hash` is the MD5 of the upserted content. -/
theorem ftsLookup_upsert (t : List FtsDocument) (fp title content vault
    category : String) (people : List String) (date : Option String) :
    ftsLookup (upsert_document t fp title content vault category people date)
      fp = some
        { file_path := fp
          file_hash := md5Hex content
          title := title
          vault := vault
          category := category
          people := String.intercalate ", " people
          date := date
          content := content } := by
  unfold upsert_document ftsLookup
  by_cases h : t.any (fun r => r.file_path = fp) = true
  · rw [if_pos h]
    exact find_map_replace t fp _ rfl h
  · rw [if_neg h]
    exact find_append_new t fp _ rfl (by simpa using h)

/-- C3, amended: after every ingest of a markdown file that writes (commits)
to the state, every vector record either predates the ingest or carries the
MD5 of the full raw content, while the keyword record for the path carries
the MD5 of the frontmatter-stripped body passed to the FTS upsert; the two
hashes coincide whenever the body equals the full content — in particular
for files without a frontmatter block — and are both MD5 values of what each
index actually stores. -/
theorem keyword_hash_is_body_hash :
    ∀ (cfg : Settings) (cancelAfter : Nat)
      (embed : String → Option (List Rat)) (table_name : String)
      (st : SysState) (checks0 : Nat) (fp c : String) (mtime : Rat)
      (out : IndexFileResult),
      index_file cfg cancelAfter embed table_name st checks0 fp (some c)
        mtime = some out →
      out.st ≠ st →
      (∀ r ∈ out.st.table, r ∈ st.table ∨ r.file_hash = md5Hex c) ∧
      (∃ fr, ftsLookup out.st.fts fp = some fr ∧
        fr.file_hash = md5Hex (frontmatter_loads c).2 ∧
        ((frontmatter_loads c).2 = c → fr.file_hash = md5Hex c)) := by
  intro cfg cancelAfter embed table_name st checks0 fp c mtime out h hne
  simp only [index_file] at h
  split at h
  · injection h with h
    exact absurd (congrArg IndexFileResult.st h.symm) hne
  · split at h
    · injection h with h
      exact absurd (congrArg IndexFileResult.st h.symm) hne
    · rw [Option.map_eq_some'] at h
      obtain ⟨meta, hmeta, hout⟩ := h
      obtain ⟨hfp, hhash, hbody⟩ := extract_metadata_fields cfg fp c meta hmeta
      split at hout
      · exact absurd (congrArg IndexFileResult.st hout.symm) hne
      · split at hout
        · exact absurd (congrArg IndexFileResult.st hout.symm) hne
        · rename_i records checks ecalls heq
          split at hout
          · exact absurd (congrArg IndexFileResult.st hout.symm) hne
          · have hrecords : ∀ r ∈ records, r.file_hash = meta.file_hash := by
              have hall := embed_loop_records_hash cancelAfter embed meta mtime
                (chunk_document_sync cfg meta.body) checks0 [] 0
                (by intro r hr; simp at hr)
              rw [heq] at hall
              exact hall
            subst hout
            constructor
            · intro r hr
              rcases List.mem_append.mp hr with h1 | h2
              · exact Or.inl (List.mem_filter.mp h1).1
              · exact Or.inr (hhash ▸ hrecords r h2)
            · refine ⟨_, ftsLookup_upsert st.fts fp meta.title meta.body
                table_name meta.category meta.people meta.date, ?_, ?_⟩
              · simp [hbody]
              · intro hbc
                simp [hbody, hbc]

/-- C3 witness: the theorem applied to the committed first ingest of the
frontmatter-free demo file. -/
theorem keyword_hash_is_body_hash_witness :
    (∀ r ∈ demoOut1.st.table,
      r ∈ emptyState.table ∨ r.file_hash = md5Hex demoContent1) ∧
    (∃ fr, ftsLookup demoOut1.st.fts demoPath = some fr ∧
      fr.file_hash = md5Hex (frontmatter_loads demoContent1).2 ∧
      ((frontmatter_loads demoContent1).2 = demoContent1 →
        fr.file_hash = md5Hex demoContent1)) :=
  keyword_hash_is_body_hash defaultSettings 1000 demoEmbed "work" emptyState 0
    demoPath demoContent1 100 demoOut1 (by decide) (by decide)

/-- When the cancellation flag first reads true at a per-chunk check inside
the embedding loop, the loop stops with the records built so far (one record
per successful embedding among the chunks before the cancelled check, one
flag read per chunk entered, one embedding attempt per passed check). -/
theorem embed_loop_cancelled (cancelAfter : Nat)
    (embed : String → Option (List Rat)) (meta : DocMeta) (mtime : Rat) :
    ∀ (chunks : List RawChunk) (checks : Nat) (recs : List DocumentChunk)
      (ecalls : Nat),
      checks ≤ cancelAfter →
      cancelAfter - checks < chunks.length →
      embed_loop cancelAfter embed meta mtime chunks checks recs ecalls =
        .cancelled
          (recs ++ ((chunks.take (cancelAfter - checks)).filterMap
            (fun ch => (embed (strTake ch.content 8000)).map
              (mkChunkRecord meta mtime ch))))
          (cancelAfter + 1)
          (ecalls + (cancelAfter - checks)) := by
  intro chunks
  induction chunks with
  | nil =>
    intro checks recs ecalls h1 h2
    simp at h2
  | cons ch rest ih =>
    intro checks recs ecalls h1 h2
    by_cases hc : cancelAfter ≤ checks
    · have hck : checks = cancelAfter := Nat.le_antisymm h1 hc
      have hz : cancelAfter - checks = 0 := by omega
      unfold embed_loop
      rw [if_pos hc, hz]
      simp [hck]
    · have hlt : checks < cancelAfter := Nat.lt_of_not_le hc
      have hd : cancelAfter - checks = (cancelAfter - (checks + 1)) + 1 := by
        omega
      unfold embed_loop
      rw [if_neg hc]
      cases he : embed (strTake ch.content 8000) with
      | some v =>
        show embed_loop cancelAfter embed meta mtime rest (checks + 1)
          (recs ++ [mkChunkRecord meta mtime ch v]) (ecalls + 1) = _
        rw [ih (checks + 1) (recs ++ [mkChunkRecord meta mtime ch v])
          (ecalls + 1) (by omega) (by simp at h2 ⊢; omega)]
        rw [hd]
        simp [List.filterMap_cons, he, List.append_assoc]
        omega
      | none =>
        show embed_loop cancelAfter embed meta mtime rest (checks + 1) recs
          (ecalls + 1) = _
        rw [ih (checks + 1) recs (ecalls + 1) (by omega)
          (by simp at h2 ⊢; omega)]
        rw [hd]
        simp [List.filterMap_cons, he]
        omega

/-- C4, amended: the cancellation flag is read before starting each file —
once the flag is set, the file loop breaks at that read, indexing nothing
further and leaving state and total unchanged — and before each chunk's
embedding call; when the flag is first observed at the check before chunk
`i` of a file (counting from the file's first check), `index_file` returns
with the vector table and keyword store unchanged — it commits nothing for
that file — and reports as its partial count the number of records built
(successfully embedded) for the first `i` chunks, after exactly `i`
embedding attempts, so the reported count may exceed the number of chunk
records actually committed. -/
theorem cancellation_checks_and_partial_count :
    (∀ (cfg : Settings) (cancelAfter : Nat)
       (embed : String → Option (List Rat)) (table_name : String) (f : MdFile)
       (rest : List MdFile) (st : SysState) (checks total : Nat),
       cancelAfter ≤ checks →
       full_reindex_md_loop cfg cancelAfter embed table_name (f :: rest) st
         checks total = some (st, total, checks + 1)) ∧
    (∀ (cfg : Settings) (cancelAfter : Nat)
       (embed : String → Option (List Rat)) (table_name : String)
       (st : SysState) (checks0 : Nat) (fp c : String) (mtime : Rat)
       (meta : DocMeta),
       is_excluded cfg fp = false →
       ¬ (pyStrip c).length < 50 →
       extract_metadata_sync cfg fp c = some meta →
       checks0 ≤ cancelAfter →
       cancelAfter - checks0 < (chunk_document_sync cfg meta.body).length →
       index_file cfg cancelAfter embed table_name st checks0 fp (some c)
         mtime = some
           ⟨st,
            (((chunk_document_sync cfg meta.body).take
                (cancelAfter - checks0)).filterMap
              (fun ch => (embed (strTake ch.content 8000)).map
                (mkChunkRecord meta mtime ch))).length,
            cancelAfter - checks0, cancelAfter + 1⟩) := by
  constructor
  · intro cfg cancelAfter embed table_name f rest st checks total hc
    unfold full_reindex_md_loop
    rw [if_pos hc]
  · intro cfg cancelAfter embed table_name st checks0 fp c mtime meta hex hlen
      hmeta h1 h2
    have hchunks : (chunk_document_sync cfg meta.body).isEmpty = false := by
      cases hcase : chunk_document_sync cfg meta.body with
      | nil => rw [hcase] at h2; simp at h2
      | cons a l => rfl
    simp only [index_file, hex, Bool.false_eq_true, if_false, hmeta,
      Option.map_some', if_neg hlen, hchunks,
      embed_loop_cancelled cancelAfter embed meta mtime
        (chunk_document_sync cfg meta.body) checks0 [] 0 h1 h2]
    simp

/-- C4 witness: the theorem applied (first part) to a one-file loop entered
with the flag already set, and (second part) to the two-chunk demo document
with the flag first observed at the second per-chunk check. -/
theorem cancellation_checks_and_partial_count_witness :
    full_reindex_md_loop defaultSettings 0 demoEmbed "work" [fileC5]
      emptyState 0 0 = some (emptyState, 0, 1) ∧
    index_file smallChunkCfg 1 demoEmbed "work" emptyState 0 demoPath
      (some longContent) 100 = some
        ⟨emptyState,
         (((chunk_document_sync smallChunkCfg longMeta.body).take
             (1 - 0)).filterMap
           (fun ch => (demoEmbed (strTake ch.content 8000)).map
             (mkChunkRecord longMeta 100 ch))).length,
         1 - 0, 1 + 1⟩ :=
  ⟨cancellation_checks_and_partial_count.1 defaultSettings 0 demoEmbed "work"
     fileC5 [] emptyState 0 0 (Nat.le_refl 0),
   cancellation_checks_and_partial_count.2 smallChunkCfg 1 demoEmbed "work"
     emptyState 0 demoPath longContent 100 longMeta (by decide) (by decide)
     (by decide) (by decide) (by decide)⟩
